import Mathlib

/-!
Verification of the TFTP packet codec and session layer of
Network-Programming-with-Go (Ch06).

The Go source of src/Ch06/types.go is shallowly embedded: byte slices become
lists of naturals (each element a byte value), Go (value, error) returns become
explicit pairs or Except values, and the mutation performed by pointer-receiver
methods becomes explicit state passing (the method returns the updated
receiver).  Machine integers (uint16) are naturals reduced mod 2^16 exactly
where the Go code can overflow.
-/

namespace TFTP

set_option autoImplicit false
set_option maxRecDepth 100000

/-- Go error values as observed by this codec: io.EOF, io.ErrUnexpectedEOF
(returned by binary.Read on a partially filled buffer), and errors.New
messages. -/
inductive GoErr where
  | eof
  | unexpectedEof
  | msg (s : String)
deriving DecidableEq

instance exceptDecEq {ε α : Type} [DecidableEq ε] [DecidableEq α] :
    DecidableEq (Except ε α)
  | .error e, .error f =>
    if h : e = f then isTrue (congrArg Except.error h)
    else isFalse (fun hh => h (Except.error.inj hh))
  | .error _, .ok _ => isFalse (fun hh => Except.noConfusion hh)
  | .ok _, .error _ => isFalse (fun hh => Except.noConfusion hh)
  | .ok a, .ok b =>
    if h : a = b then isTrue (congrArg Except.ok h)
    else isFalse (fun hh => h (Except.ok.inj hh))

def invalidRRQ : GoErr := .msg "invalid RRQ"
def onlyBinaryErr : GoErr := .msg "only binary transfers supported"
def invalidDATA : GoErr := .msg "invalid DATA"
def invalidACK : GoErr := .msg "invalid ACK"
def invalidERROR : GoErr := .msg "invalid ERROR"

/-- DatagramSize from types.go: the maximum supported datagram size. -/
def DatagramSize : Nat := 516

/-- BlockSize from types.go: the DatagramSize minus a 4-byte header. -/
def BlockSize : Nat := DatagramSize - 4

/-- OpCode values from types.go (OpRRQ OpCode = iota + 1, WRQ skipped). -/
def OpRRQ : Nat := 1

def OpData : Nat := 3

def OpAck : Nat := 4

def OpErr : Nat := 5

/-- Big-endian encoding of a uint16 value, as produced by
binary.Write(b, binary.BigEndian, x) for a 16-bit x. -/
def u16be (n : Nat) : List Nat := [n / 256 % 256, n % 256]

/-- binary.Read(r, binary.BigEndian, &x) for a 16-bit x: consumes two bytes.
With no bytes available it fails with io.EOF, with one byte it fails with
io.ErrUnexpectedEOF (io.ReadFull semantics). -/
def readUint16 : List Nat → Except GoErr (Nat × List Nat)
  | [] => .error .eof
  | [_] => .error .unexpectedEof
  | b0 :: b1 :: rest => .ok (b0 * 256 + b1, rest)

/-- bytes.Buffer.ReadString(0): reads up to and including the first NUL byte.
If no NUL occurs the whole remainder is returned together with io.EOF. -/
def readString0 : List Nat → (List Nat × Option GoErr) × List Nat
  | [] => (([], some .eof), [])
  | b :: rest =>
    if b = 0 then (([0], none), rest)
    else
      let res := readString0 rest
      ((b :: res.1.1, res.1.2), res.2)

/-- strings.TrimRight(s, String 0): removes every trailing NUL byte. -/
def trimRight0 (l : List Nat) : List Nat :=
  (l.reverse.dropWhile (fun b => b == 0)).reverse

/-- strings.ToLower restricted to the byte strings this codec compares
against the ASCII constant "octet": ASCII uppercase letters are lowered. -/
def toLowerBytes (l : List Nat) : List Nat :=
  l.map (fun b => if 65 ≤ b ∧ b ≤ 90 then b + 32 else b)

/-- The byte string "octet". -/
def octetBytes : List Nat := [111, 99, 116, 101, 116]

/-- The byte string "OCTET". -/
def OCTETBytes : List Nat := [79, 67, 84, 69, 84]

/-- A write to a bytes.Buffer: appends the data and returns a nil error
(bytes.Buffer writes never return a non-nil error; they can only panic on
ErrTooLarge). The marshal methods of types.go check this error after every
write, so the embedding keeps those checks. -/
def bufferWrite (b data : List Nat) : List Nat × Option GoErr :=
  (b ++ data, none)

/-- ReadReq from types.go: Filename and Mode are byte strings. -/
structure ReadReq where
  Filename : List Nat
  Mode : List Nat
deriving DecidableEq

/-- ReadReq.MarshalBinary from types.go lines 68-112: writes
opcode(2) + filename + 0 + (mode, defaulting to "octet") + 0, checking each
buffer write for an error. -/
def ReadReq.MarshalBinary (q : ReadReq) : Except GoErr (List Nat) :=
  let mode := if q.Mode = [] then octetBytes else q.Mode
  match bufferWrite [] (u16be OpRRQ) with
  | (_, some e) => .error e
  | (b, none) =>
    match bufferWrite b q.Filename with
    | (_, some e) => .error e
    | (b, none) =>
      match bufferWrite b [0] with
      | (_, some e) => .error e
      | (b, none) =>
        match bufferWrite b mode with
        | (_, some e) => .error e
        | (b, none) =>
          match bufferWrite b [0] with
          | (_, some e) => .error e
          | (b, none) => .ok b

/-- ReadReq.UnmarshalBinary from types.go lines 119-163, embedded with the
receiver passed and returned explicitly (the Go method mutates q through a
pointer).  Note line 128 of the source: when reading the operation code
fails, the method returns nil, i.e. success with the receiver untouched. -/
def ReadReq.UnmarshalBinary (q : ReadReq) (p : List Nat) : ReadReq × Option GoErr :=
  match readUint16 p with
  | .error _ => (q, none)
  | .ok (code, r) =>
    if code ≠ OpRRQ then (q, some invalidRRQ)
    else
      let fres := readString0 r
      let q1 : ReadReq := { q with Filename := fres.1.1 }
      match fres.1.2 with
      | some _ => (q1, some invalidRRQ)
      | none =>
        let q2 : ReadReq := { q1 with Filename := trimRight0 q1.Filename }
        if q2.Filename.length = 0 then (q2, some invalidRRQ)
        else
          let mres := readString0 fres.2
          let q3 : ReadReq := { q2 with Mode := mres.1.1 }
          match mres.1.2 with
          | some _ => (q3, some invalidRRQ)
          | none =>
            let q4 : ReadReq := { q3 with Mode := trimRight0 q3.Mode }
            if q4.Mode.length = 0 then (q4, some invalidRRQ)
            else if toLowerBytes q4.Mode ≠ octetBytes then (q4, some onlyBinaryErr)
            else (q4, none)

/-- An io.Reader as used for the Data payload: a stream of bytes followed,
once the bytes are exhausted, by either end of stream (fail = none reads as
io.EOF) or a read failure (fail = some e). -/
structure GoReader where
  data : List Nat
  fail : Option GoErr
deriving DecidableEq

/-- io.CopyN(dst, src, n): copies up to n bytes.  It returns a nil error
exactly when n bytes were copied; on a shorter stream it returns io.EOF, or
the stream's own read error when the stream fails rather than ends. -/
def readerCopyN (r : GoReader) (n : Nat) : List Nat × Option GoErr × GoReader :=
  if n ≤ r.data.length then
    (r.data.take n, none, { r with data := r.data.drop n })
  else
    (r.data, some (r.fail.getD .eof), { r with data := [] })

/-- Data from types.go: the current block number and the payload source. -/
structure Data where
  Block : Nat
  Payload : GoReader
deriving DecidableEq

/-- Data.MarshalBinary from types.go lines 175-198, embedded with the receiver
passed and returned explicitly (the Go method mutates d through a pointer:
it increments d.Block and consumes up to BlockSize bytes of d.Payload).
The first component is the Go ([]byte, error) pair: an optional byte slice
(none embeds a nil slice) and an optional error.  Note line 193 of the
source: the guard reads err != nil || err != io.EOF. -/
def Data.MarshalBinary (d : Data) : (Option (List Nat) × Option GoErr) × Data :=
  let block := (d.Block + 1) % 65536
  match bufferWrite [] (u16be OpData) with
  | (_, some e) => ((none, some e), { d with Block := block })
  | (b, none) =>
    match bufferWrite b (u16be block) with
    | (_, some e) => ((none, some e), { d with Block := block })
    | (b, none) =>
      let res := readerCopyN d.Payload BlockSize
      let bytes := b ++ res.1
      let err := res.2.1
      let d' : Data := { Block := block, Payload := res.2.2 }
      if err ≠ none ∨ err ≠ some GoErr.eof then ((none, err), d')
      else ((some bytes, none), d')

/-- Data.UnmarshalBinary from types.go lines 202-225, embedded with the
receiver passed and returned explicitly: validates the length bounds and the
opcode, then stores the block number and a buffer over the remaining bytes. -/
def Data.UnmarshalBinary (d : Data) (p : List Nat) : Data × Option GoErr :=
  if p.length < 4 ∨ p.length > DatagramSize then (d, some invalidDATA)
  else
    match readUint16 (p.take 2) with
    | .error _ => (d, some invalidDATA)
    | .ok (opcode, _) =>
      if opcode ≠ OpData then (d, some invalidDATA)
      else
        match readUint16 ((p.drop 2).take 2) with
        | .error _ => (d, some invalidDATA)
        | .ok (block, _) =>
          ({ Block := block, Payload := { data := p.drop 4, fail := none } }, none)

/-- Ack from types.go: an acknowledgement is a bare uint16 block number. -/
abbrev Ack := Nat

/-- Ack.MarshalBinary from types.go lines 231-248: writes opcode(2) and the
block number, checking each buffer write for an error. -/
def Ack.MarshalBinary (a : Ack) : Except GoErr (List Nat) :=
  match bufferWrite [] (u16be OpAck) with
  | (_, some e) => .error e
  | (b, none) =>
    match bufferWrite b (u16be (a % 65536)) with
    | (_, some e) => .error e
    | (b, none) => .ok b

/-- Ack.UnmarshalBinary from types.go lines 250-265: reads and checks the
opcode, then reads the block number, propagating any read error. -/
def Ack.UnmarshalBinary (p : List Nat) : Except GoErr Ack :=
  match readUint16 p with
  | .error e => .error e
  | .ok (code, r) =>
    if code ≠ OpAck then .error invalidACK
    else
      match readUint16 r with
      | .error e => .error e
      | .ok (a, _) => .ok a

/-- Err from types.go: an error code (uint16) and a message byte string. -/
structure Err where
  Error : Nat
  Message : List Nat
deriving DecidableEq

/-- Err.MarshalBinary from types.go lines 274-302: writes opcode(2), the
error code(2), the message and a terminating NUL, checking each buffer write
for an error. -/
def Err.MarshalBinary (e : Err) : Except GoErr (List Nat) :=
  match bufferWrite [] (u16be OpErr) with
  | (_, some er) => .error er
  | (b, none) =>
    match bufferWrite b (u16be (e.Error % 65536)) with
    | (_, some er) => .error er
    | (b, none) =>
      match bufferWrite b e.Message with
      | (_, some er) => .error er
      | (b, none) =>
        match bufferWrite b [0] with
        | (_, some er) => .error er
        | (b, none) => .ok b

/-- Err.UnmarshalBinary from types.go lines 306-329, embedded with the
receiver passed and returned explicitly: reads and checks the opcode, reads
the error code, then reads the message up to a NUL, trims trailing NULs and
returns the error of that final ReadString call. -/
def Err.UnmarshalBinary (e : Err) (p : List Nat) : Err × Option GoErr :=
  match readUint16 p with
  | .error er => (e, some er)
  | .ok (code, r) =>
    if code ≠ OpErr then (e, some invalidERROR)
    else
      match readUint16 r with
      | .error er => (e, some er)
      | .ok (c, r) =>
        let e1 : Err := { e with Error := c }
        let mres := readString0 r
        let e2 : Err := { e1 with Message := trimRight0 mres.1.1 }
        (e2, mres.1.2)

/-- Modelled from the spec: the lifecycle states of a server transfer session
(section 4.2 of the spec; the server handle loop of the repository is not
among the sources, only its command-line caller is). -/
inductive SessionState where
  | Active
  | Completed
  | Aborted
deriving DecidableEq

/-- Modelled from the spec: the per-client session of the missing server
implementation, with the currently outstanding block, the datagram remembered
for retransmission, the retry budget, the remaining payload stream and the
lifecycle state. -/
structure Session where
  currentBlock : Nat
  lastSent : List Nat
  retriesLeft : Nat
  payload : GoReader
  state : SessionState
deriving DecidableEq

/-- Modelled from the spec: the send-next-block step of section 4.2 --
increment the outstanding block, emit a DATA packet carrying up to BlockSize
bytes of the stream, remember the datagram, reset the retry budget.  The
second component collects the datagrams transmitted by the step. -/
def sessionSendNext (cfgRetries : Nat) (s : Session) : Session × List (List Nat) :=
  let block := (s.currentBlock + 1) % 65536
  let chunk := s.payload.data.take BlockSize
  let dgram := u16be OpData ++ u16be block ++ chunk
  ({ currentBlock := block
     lastSent := dgram
     retriesLeft := cfgRetries
     payload := { s.payload with data := s.payload.data.drop BlockSize }
     state := .Active }, [dgram])

/-- Modelled from the spec: the ACK-handling step of section 4.2.  An ACK for
the outstanding block completes the transfer when the last datagram was short,
and otherwise sends the next block; an ACK for any other block is a stale or
duplicate acknowledgement and is ignored with no transmission and no state
change. -/
def sessionOnAck (cfgRetries : Nat) (s : Session) (n : Nat) : Session × List (List Nat) :=
  if n = s.currentBlock then
    if s.lastSent.length < DatagramSize then ({ s with state := .Completed }, [])
    else sessionSendNext cfgRetries s
  else (s, [])

/-! Helper lemmas about the embedded primitives. -/

theorem readString0_append_nul (l r : List Nat) (h : 0 ∉ l) :
    readString0 (l ++ 0 :: r) = ((l ++ [0], none), r) := by
  induction l with
  | nil => simp [readString0]
  | cons a t ih =>
    have ha : a ≠ 0 := fun e => h (by simp [e])
    have ht : 0 ∉ t := fun m => h (List.mem_cons_of_mem a m)
    simp [readString0, ha, ih ht]

theorem dropWhile_beq_zero_of_not_mem (m : List Nat) (h : 0 ∉ m) :
    m.dropWhile (fun b => b == 0) = m := by
  cases m with
  | nil => rfl
  | cons a t =>
    have ha : a ≠ 0 := fun e => h (by simp [e])
    simp [List.dropWhile_cons, ha]

theorem trimRight0_append_nul (l : List Nat) (h : 0 ∉ l) :
    trimRight0 (l ++ [0]) = l := by
  have h' : 0 ∉ l.reverse := fun m => h (List.mem_reverse.mp m)
  simp [trimRight0, List.reverse_append, List.dropWhile_cons,
        dropWhile_beq_zero_of_not_mem l.reverse h']

theorem readReq_marshal_eq (q : ReadReq) :
    ReadReq.MarshalBinary q =
      .ok (u16be OpRRQ ++ q.Filename ++ [0] ++
        (if q.Mode = [] then octetBytes else q.Mode) ++ [0]) := by
  simp [ReadReq.MarshalBinary, bufferWrite, List.append_assoc]

theorem readReq_unmarshal_valid (q0 : ReadReq) (fn m : List Nat)
    (hfn : fn ≠ []) (hfn0 : 0 ∉ fn) (hm0 : 0 ∉ m) (hmne : m ≠ [])
    (hlow : toLowerBytes m = octetBytes) :
    ReadReq.UnmarshalBinary q0 (u16be OpRRQ ++ fn ++ [0] ++ m ++ [0]) = (⟨fn, m⟩, none) := by
  have h1 : u16be OpRRQ ++ fn ++ [0] ++ m ++ [0] = 0 :: 1 :: (fn ++ 0 :: (m ++ 0 :: [])) := by
    simp [u16be, OpRRQ]
  rw [h1]
  have h2 : readString0 (fn ++ 0 :: (m ++ 0 :: [])) = ((fn ++ [0], none), m ++ 0 :: []) :=
    readString0_append_nul fn (m ++ 0 :: []) hfn0
  have h3 : readString0 (m ++ 0 :: []) = ((m ++ [0], none), []) :=
    readString0_append_nul m [] hm0
  simp [ReadReq.UnmarshalBinary, readUint16, OpRRQ, h2, h3,
        trimRight0_append_nul fn hfn0, trimRight0_append_nul m hm0,
        hfn, hmne, hlow]

theorem err_marshal_eq (e : Err) :
    Err.MarshalBinary e =
      .ok (u16be OpErr ++ u16be (e.Error % 65536) ++ e.Message ++ [0]) := by
  simp [Err.MarshalBinary, bufferWrite, List.append_assoc]

theorem data_marshal_eq (d : Data) :
    Data.MarshalBinary d =
      ((none, (readerCopyN d.Payload BlockSize).2.1),
       { Block := (d.Block + 1) % 65536, Payload := (readerCopyN d.Payload BlockSize).2.2 }) := by
  simp only [Data.MarshalBinary, bufferWrite]
  rcases h : (readerCopyN d.Payload BlockSize).2.1 with _ | e <;> simp [h]

/-! Claim theorems. -/

/-- C1: the claim says decoding the result of encoding a DATA packet recovers
the block number and payload.  The code refutes this: the guard on line 193
of types.go (err != nil || err != io.EOF) is a tautology, so Data.MarshalBinary
always takes the error return and never produces the encoded packet bytes --
for every receiver state and payload stream the returned slice is nil. -/
theorem c1_data_marshal_never_returns_packet (d : Data) :
    ((Data.MarshalBinary d).1).1 = none := by
  rw [data_marshal_eq]

/-- C2: the claim says a short payload read still returns the short packet
successfully, and a full read returns the packet.  The code instead returns
(nil, io.EOF) on a short read (here: the empty stream) and (nil, nil) on a
full 512-byte read -- in neither case the packet. -/
theorem c2_data_marshal_short_read_errors :
    Data.MarshalBinary ⟨0, ⟨[], none⟩⟩ = ((none, some GoErr.eof), ⟨1, ⟨[], none⟩⟩) ∧
    Data.MarshalBinary ⟨0, ⟨List.replicate 512 7, none⟩⟩ = ((none, none), ⟨1, ⟨[], none⟩⟩) :=
  ⟨by decide, by decide⟩

/-- C3: the claim says ReadReq.UnmarshalBinary errors on every invalid input,
including a truncated opcode.  The code returns nil (success) when reading
the opcode fails (line 128 of types.go): the empty input and the one-byte
input both unmarshal successfully, leaving the receiver untouched. -/
theorem c3_unmarshal_truncated_input_succeeds :
    ReadReq.UnmarshalBinary ⟨[], []⟩ [] = (⟨[], []⟩, none) ∧
    ReadReq.UnmarshalBinary ⟨[], []⟩ [1] = (⟨[], []⟩, none) :=
  ⟨by decide, by decide⟩

/-- C4 counterexample: marshaling ReadReq with Filename "a" and Mode "OCTET"
and unmarshaling the result succeeds but leaves the Mode field as "OCTET" --
the code checks a lower-cased copy and never normalizes the stored Mode. -/
theorem c4_counterexample :
    ReadReq.MarshalBinary ⟨[97], OCTETBytes⟩ = .ok [0, 1, 97, 0, 79, 67, 84, 69, 84, 0] ∧
    ReadReq.UnmarshalBinary ⟨[], []⟩ [0, 1, 97, 0, 79, 67, 84, 69, 84, 0] =
      (⟨[97], OCTETBytes⟩, none) ∧
    OCTETBytes ≠ octetBytes :=
  ⟨by decide, by decide, by decide⟩

/-- C4 (amended): for every nonempty filename containing no NUL byte and every
mode in the set of the empty string, "octet" and "OCTET", marshal followed by
unmarshal succeeds, recovers the Filename unchanged, and yields as Mode the
mode string that was written: "octet" when the original mode was empty,
otherwise the original mode with its case preserved. -/
theorem c4_amended (q0 : ReadReq) (fn mode : List Nat) (hfn : fn ≠ []) (hfn0 : 0 ∉ fn)
    (hmode : mode = [] ∨ mode = octetBytes ∨ mode = OCTETBytes) :
    ReadReq.MarshalBinary ⟨fn, mode⟩ =
      .ok (u16be OpRRQ ++ fn ++ [0] ++ (if mode = [] then octetBytes else mode) ++ [0]) ∧
    ReadReq.UnmarshalBinary q0
        (u16be OpRRQ ++ fn ++ [0] ++ (if mode = [] then octetBytes else mode) ++ [0]) =
      (⟨fn, if mode = [] then octetBytes else mode⟩, none) := by
  refine ⟨readReq_marshal_eq ⟨fn, mode⟩, ?_⟩
  rcases hmode with h | h | h <;> subst h
  · simpa using readReq_unmarshal_valid q0 fn octetBytes hfn hfn0 (by decide) (by decide)
      (by decide)
  · simpa using readReq_unmarshal_valid q0 fn octetBytes hfn hfn0 (by decide) (by decide)
      (by decide)
  · simpa using readReq_unmarshal_valid q0 fn OCTETBytes hfn hfn0 (by decide) (by decide)
      (by decide)

/-- C4 amended witness: the amended claim applied at Filename "a" and the
empty mode. -/
theorem c4_amended_witness :
    ReadReq.MarshalBinary ⟨[97], []⟩ =
      .ok (u16be OpRRQ ++ [97] ++ [0] ++
        (if ([] : List Nat) = [] then octetBytes else []) ++ [0]) ∧
    ReadReq.UnmarshalBinary ⟨[], []⟩
        (u16be OpRRQ ++ [97] ++ [0] ++ (if ([] : List Nat) = [] then octetBytes else []) ++ [0]) =
      (⟨[97], if ([] : List Nat) = [] then octetBytes else []⟩, none) :=
  c4_amended ⟨[], []⟩ [97] [] (by decide) (by decide) (Or.inl rfl)

/-- C5 counterexample: an ERROR packet with a 512-byte message marshals to
517 bytes, exceeding DatagramSize (516) -- Err.MarshalBinary never truncates
its message. -/
theorem c5_counterexample :
    Err.MarshalBinary ⟨0, List.replicate 512 97⟩ =
      .ok (u16be OpErr ++ u16be 0 ++ List.replicate 512 97 ++ [0]) ∧
    DatagramSize < (u16be OpErr ++ u16be 0 ++ List.replicate 512 97 ++ [0]).length := by
  constructor
  · simpa using err_marshal_eq ⟨0, List.replicate 512 97⟩
  · simp [u16be, DatagramSize]

/-- C5 (amended): an ERROR packet marshals to exactly 5 + message-length
bytes, so every Err.MarshalBinary output stays within DatagramSize (516)
exactly when the message is at most 511 bytes; Data.MarshalBinary never
returns a byte slice at all, so it trivially respects the bound. -/
theorem c5_amended (c : Nat) (m : List Nat) (hm : m.length ≤ 511) (out : List Nat)
    (hout : Err.MarshalBinary ⟨c, m⟩ = .ok out) : out.length ≤ DatagramSize := by
  rw [err_marshal_eq] at hout
  have h := Except.ok.inj hout
  subst h
  simp [u16be, DatagramSize]
  omega

/-- C5 amended witness: the amended bound applied to the ERROR packet with
code 0 and the empty message. -/
theorem c5_amended_witness : ([0, 5, 0, 0, 0] : List Nat).length ≤ DatagramSize :=
  c5_amended 0 [] (by decide) [0, 5, 0, 0, 0] rfl

/-- C6 counterexample: Data.MarshalBinary does not leave the receiver
unchanged -- on a Data with Block 0 it returns a receiver with Block 1. -/
theorem c6_counterexample :
    (Data.MarshalBinary ⟨0, ⟨[9], none⟩⟩).2 ≠ ⟨0, ⟨[9], none⟩⟩ ∧
    (Data.MarshalBinary ⟨0, ⟨[9], none⟩⟩).2.Block = 1 :=
  ⟨by decide, by decide⟩

/-- C6 (amended): Data.MarshalBinary is not side-effect-free: every call
increments the receiver's Block field modulo 2^16 and consumes up to
BlockSize bytes of the Payload stream (the stream's pending failure mode is
preserved). -/
theorem c6_amended (d : Data) :
    (Data.MarshalBinary d).2.Block = (d.Block + 1) % 65536 ∧
    (Data.MarshalBinary d).2.Payload.data = d.Payload.data.drop BlockSize ∧
    (Data.MarshalBinary d).2.Payload.fail = d.Payload.fail := by
  rw [data_marshal_eq]
  refine ⟨rfl, ?_, ?_⟩
  · simp only [readerCopyN]
    split
    · rfl
    · next hgt =>
      have : d.Payload.data.length ≤ BlockSize := by omega
      simp [List.drop_eq_nil_of_le this]
  · simp only [readerCopyN]
    split <;> rfl

/-- C7: for every block number below 2^16, Ack.MarshalBinary emits exactly the
4-byte packet of opcode 4 followed by the block in big-endian,
Ack.UnmarshalBinary recovers the block from that packet, and
Ack.UnmarshalBinary fails with an error on every buffer shorter than 4 bytes
and on every input whose leading 2-byte opcode is not 4. -/
theorem c7_ack_roundtrip (a : Nat) (ha : a < 65536) :
    Ack.MarshalBinary a = .ok (u16be OpAck ++ u16be a) ∧
    (u16be OpAck ++ u16be a).length = 4 ∧
    Ack.UnmarshalBinary (u16be OpAck ++ u16be a) = .ok a ∧
    (∀ p : List Nat, p.length < 4 → ∃ er, Ack.UnmarshalBinary p = .error er) ∧
    (∀ (b0 b1 : Nat) (r : List Nat), b0 * 256 + b1 ≠ OpAck →
      ∃ er, Ack.UnmarshalBinary (b0 :: b1 :: r) = .error er) := by
  have hmod : a % 65536 = a := Nat.mod_eq_of_lt ha
  have hdiv : a / 256 < 256 := by omega
  have hval : a / 256 % 256 * 256 + a % 256 = a := by
    rw [Nat.mod_eq_of_lt hdiv]
    omega
  refine ⟨?_, ?_, ?_, ?_, ?_⟩
  · simp [Ack.MarshalBinary, bufferWrite, hmod]
  · simp [u16be]
  · simp [Ack.UnmarshalBinary, u16be, OpAck, readUint16, hval]
  · intro p hp
    match p with
    | [] => exact ⟨.eof, rfl⟩
    | [b0] => exact ⟨.unexpectedEof, rfl⟩
    | [b0, b1] =>
      by_cases hc : b0 * 256 + b1 = OpAck
      · exact ⟨.eof, by simp [Ack.UnmarshalBinary, readUint16, hc]⟩
      · exact ⟨invalidACK, by simp [Ack.UnmarshalBinary, readUint16, hc]⟩
    | [b0, b1, b2] =>
      by_cases hc : b0 * 256 + b1 = OpAck
      · exact ⟨.unexpectedEof, by simp [Ack.UnmarshalBinary, readUint16, hc]⟩
      · exact ⟨invalidACK, by simp [Ack.UnmarshalBinary, readUint16, hc]⟩
    | b0 :: b1 :: b2 :: b3 :: rest =>
      exfalso
      simp [List.length_cons] at hp
      omega
  · intro b0 b1 r hne
    exact ⟨invalidACK, by simp [Ack.UnmarshalBinary, readUint16, hne]⟩

/-- C7 witness: the round trip instantiated at block 515. -/
theorem c7_ack_roundtrip_witness : Ack.MarshalBinary 515 = .ok (u16be OpAck ++ u16be 515) :=
  (c7_ack_roundtrip 515 (by decide)).1

/-- C8 counterexample: the ERROR round trip does not recover a message
containing a NUL byte: the packet for code 0 and message consisting of one
NUL byte unmarshals successfully to the empty message. -/
theorem c8_counterexample :
    Err.MarshalBinary ⟨0, [0]⟩ = .ok [0, 5, 0, 0, 0, 0] ∧
    Err.UnmarshalBinary ⟨0, []⟩ [0, 5, 0, 0, 0, 0] = (⟨0, []⟩, none) ∧
    ([] : List Nat) ≠ [0] :=
  ⟨by decide, by decide, by decide⟩

/-- C8 (amended): Err.MarshalBinary always emits opcode(2)=5, code(2), the
message and a trailing NUL; for every code below 2^16 and every message
containing no NUL byte the round trip recovers code and message exactly, and
Err.UnmarshalBinary fails on every input whose leading 2-byte opcode is
not 5.  (A message containing a NUL byte is truncated at its first NUL on
unmarshaling, as the counterexample shows.) -/
theorem c8_amended (e0 : Err) (c : Nat) (hc : c < 65536) (m : List Nat) (hm : 0 ∉ m) :
    Err.MarshalBinary ⟨c, m⟩ = .ok (u16be OpErr ++ u16be c ++ m ++ [0]) ∧
    Err.UnmarshalBinary e0 (u16be OpErr ++ u16be c ++ m ++ [0]) = (⟨c, m⟩, none) ∧
    (∀ (b0 b1 : Nat) (r : List Nat), b0 * 256 + b1 ≠ OpErr →
      ∃ er, (Err.UnmarshalBinary e0 (b0 :: b1 :: r)).2 = some er) := by
  have hmod : c % 65536 = c := Nat.mod_eq_of_lt hc
  have hval : c / 256 % 256 * 256 + c % 256 = c := by omega
  refine ⟨?_, ?_, ?_⟩
  · simpa [hmod] using err_marshal_eq ⟨c, m⟩
  · have h1 : u16be OpErr ++ u16be c ++ m ++ [0] =
        0 :: 5 :: (u16be c ++ (m ++ 0 :: [])) := by
      simp [u16be, OpErr]
    rw [h1]
    have h2 : readString0 (m ++ 0 :: []) = ((m ++ [0], none), []) :=
      readString0_append_nul m [] hm
    simp [Err.UnmarshalBinary, readUint16, u16be, OpErr, hval, h2,
          trimRight0_append_nul m hm]
  · intro b0 b1 r hne
    exact ⟨invalidERROR, by simp [Err.UnmarshalBinary, readUint16, hne]⟩

/-- C8 amended witness: the amended round trip applied at code 1 and the
message "hi". -/
theorem c8_amended_witness :
    Err.UnmarshalBinary ⟨0, []⟩ (u16be OpErr ++ u16be 1 ++ [104, 105] ++ [0]) =
      (⟨1, [104, 105]⟩, none) :=
  (c8_amended ⟨0, []⟩ 1 (by decide) [104, 105] (by decide)).2.1

/-- C9: in the session state machine an ACK whose block number differs from
the currently outstanding block (a stale or duplicate acknowledgement) is
ignored: the step transmits nothing and returns the session unchanged. -/
theorem c9_stale_ack_identity (cfgRetries : Nat) (s : Session) (n : Nat)
    (h : n ≠ s.currentBlock) : sessionOnAck cfgRetries s n = (s, []) := by
  simp [sessionOnAck, h]

/-- C9 witness: a session awaiting an ACK for block 1 ignores a duplicate
ACK for block 2. -/
theorem c9_stale_ack_identity_witness :
    sessionOnAck 5 ⟨1, [0, 3, 0, 1, 7], 5, ⟨[], none⟩, .Active⟩ 2 =
      (⟨1, [0, 3, 0, 1, 7], 5, ⟨[], none⟩, .Active⟩, []) :=
  c9_stale_ack_identity 5 ⟨1, [0, 3, 0, 1, 7], 5, ⟨[], none⟩, .Active⟩ 2 (by decide)

/-- C10: Ack.MarshalBinary never takes an error branch: for every block
value it returns a non-empty byte slice and no error, because both writes go
to a bytes.Buffer, whose writes always return a nil error. -/
theorem c10_ack_marshal_total (a : Nat) :
    Ack.MarshalBinary a = .ok (u16be OpAck ++ u16be (a % 65536)) ∧
    u16be OpAck ++ u16be (a % 65536) ≠ [] := by
  constructor
  · simp [Ack.MarshalBinary, bufferWrite]
  · simp [u16be]

end TFTP
